import Mathlib

/-!
Shallow embedding of the chem-sim narration core (src/narration.js) and of
the per-tile history store (src/history.js).

Modelling conventions: JS numbers become rationals, JS objects that are
used as ordered string-keyed maps become association lists in insertion
order, nullable or possibly-absent values become Option, and JS arrays
become lists.  Reaction activity lists may contain falsy entries, so they
are lists of optional entries.  The narrator closure parameters
(materialRegistry, reactions) are threaded explicitly through every
function that reads them.
-/

namespace ChemSim

/-- Substring test on character lists, modelling the JS String.includes method. -/
def listInfix (pat : List Char) : List Char → Bool
  | [] => pat.isEmpty
  | c :: rest => pat.isPrefixOf (c :: rest) || listInfix pat rest

/-- Substring test, modelling the JS String.includes method. -/
def strContains (s pat : String) : Bool := listInfix pat.data s.data

/-- Test modelling JS String.startsWith. -/
def strStarts (s pat : String) : Bool := pat.data.isPrefixOf s.data

/-- Test modelling a regex alternative anchored at the end of the string. -/
def strEnds (s pat : String) : Bool := pat.data.isSuffixOf s.data

/-- JS truthiness fallback chain for string-valued options: an absent or empty
string falls through to the second alternative. -/
def jsOrStr (a b : Option String) : Option String :=
  match a with
  | some s => if s = "" then b else some s
  | none => b

/-- Point lookup in a string-keyed association list, modelling JS object indexing. -/
def lookupStr (l : List (String × String)) (k : String) : Option String :=
  (l.find? (fun p => p.1 == k)).map (·.2)

/-- Rounding as done by the JS Math.round function: half-values round toward
positive infinity. -/
def jsRound (q : ℚ) : ℤ := Rat.floor (q + 1/2)

/-- Minimum of two rationals, modelling the JS Math.min function. -/
def ratMin (a b : ℚ) : ℚ := if a ≤ b then a else b

/-- Absolute value of a rational, modelling the JS Math.abs function. -/
def ratAbs (q : ℚ) : ℚ := if q < 0 then -q else q

/-- Material metadata as served by the material registry. -/
structure Material where
  displayName : Option String
  phaseSTP : Option String
  corrosivity : Option String
  hazardTags : List String
  flammability : Option String
  toxicity : Option String
  color : Option String

/-- The material registry is consumed through point lookups only. -/
abbrev Registry := String → Option Material

/-- Reaction effects record; each field is optional in the source and defaults
to zero or false on read. -/
structure Effects where
  heatPerUnit : ℚ
  emitGas : Bool
  pressurePulse : Bool

/-- Static reaction definition.  Only the keys of the stoichiometric reactant
map are read by the narration core, in insertion order. -/
structure Reaction where
  id : String
  equation : Option String
  tags : List String
  reactants : List (String × ℚ)
  phases : List (String × String)
  effects : Effects

/-- One product record of an activity entry. -/
structure Product where
  id : String
  qty : ℚ

/-- One active-reaction record of a tile. -/
structure Entry where
  id : String
  extent : ℚ
  limiter : Option String
  heat : Bool
  fizz : Bool
  products : List Product

/-- History sample as consumed by the narration core; every numeric field other
than the timestamp may be absent. -/
structure Sample where
  t : ℚ
  temp : Option ℚ
  pressure : Option ℚ
  pH : Option ℚ
  gasSum : Option ℚ

/-- Tile (cell) state as read by the narration core. -/
structure Tile where
  temp : ℚ
  pH : ℚ
  moisture : ℚ
  pressure : ℚ
  gas : List (String × ℚ)
  species : List (String × ℚ)
  history : List Sample
  activity : List (Option Entry)

/-- Copy of a tile with its activity list replaced. -/
def setActivity (tile : Tile) (a : List (Option Entry)) : Tile :=
  ⟨tile.temp, tile.pH, tile.moisture, tile.pressure, tile.gas, tile.species,
    tile.history, a⟩

/-- Discrete trend direction. -/
inductive Trend where
  | up
  | down
  | flat
deriving DecidableEq

/-- Window of the most recent samples, modelling lastN of narration.js: null
for histories of fewer than two samples, otherwise the last min(n, length)
samples. -/
def lastN (history : List Sample) (n : Nat) : Option (List Sample) :=
  if history.length < 2 then none
  else some (history.drop (history.length - min n history.length))

/-- Trend of a numeric field over the last three samples, modelling trendOf of
narration.js.  A missing field value reads as zero. -/
def trendOf (history : List Sample) (field : Sample → Option ℚ) (eps : ℚ) : Trend :=
  match lastN history 3 with
  | none => Trend.flat
  | some h =>
    match h with
    | [] => Trend.flat
    | [_] => Trend.flat
    | first :: rest =>
      let lastS := rest.getLastD first
      let dt := (lastS.t - first.t) / 1000
      if dt ≤ 0 then Trend.flat
      else
        let dv := (field lastS).getD 0 - (field first).getD 0
        let slope := dv / dt
        if eps < slope then Trend.up
        else if slope < -eps then Trend.down
        else Trend.flat

/-- Temperature-trend suffix of the tile summary, modelling trendLabelTemp. -/
def trendLabelTemp (history : List Sample) : String :=
  match trendOf history (fun s => s.temp) (0.05 : ℚ) with
  | Trend.up => " (heating up)"
  | Trend.down => " (cooling)"
  | Trend.flat => ""

/-- Pressure-trend clause of the tile summary, modelling trendLabelPressure. -/
def trendLabelPressure (history : List Sample) : Option String :=
  match trendOf history (fun s => s.pressure) (0.02 : ℚ) with
  | Trend.up => some "pressure building"
  | Trend.down => some "venting"
  | Trend.flat => none

/-- The pH-trend clause of the tile summary, modelling trendLabelPH: an
absolute-delta rule over the window with threshold 0.02, reporting
neutralizing whenever the window-end pH is strictly inside (6.8, 7.2). -/
def trendLabelPH (history : List Sample) : Option String :=
  match lastN history 3 with
  | none => none
  | some h =>
    match h with
    | [] => none
    | [_] => none
    | first :: rest =>
      let lastS := rest.getLastD first
      match first.pH, lastS.pH with
      | some a, some b =>
        let delta := b - a
        if ratAbs delta < (0.02 : ℚ) then none
        else if (6.8 : ℚ) < b ∧ b < (7.2 : ℚ) then some "neutralizing"
        else if 0 < delta then some "becoming more basic"
        else some "becoming more acidic"
      | _, _ => none

/-- Aggregate gas-quantity trend clause of the tile summary, modelling
trendLabelGas. -/
def trendLabelGas (history : List Sample) : Option String :=
  match trendOf history (fun s => s.gasSum) (0.01 : ℚ) with
  | Trend.up => some "gas building"
  | Trend.down => some "gas dissipating"
  | Trend.flat => none

/-! History store (src/history.js), modelled per subscribed tile. -/

/-- Sample as appended by the history store: it carries time, temperature and
pressure only. -/
structure HSample where
  t : ℚ
  temp : ℚ
  pressure : ℚ

/-- Per-tile history-store state: the sample buffer plus the bookkeeping
timestamp of the last appended sample (none stands for minus infinity). -/
structure HState where
  history : List HSample
  lastSampleAt : Option ℚ

/-- Spacing gate of recordSubscribedHistories.  The source reads the last
sample time through a JS falsy-coalescing fallback to minus infinity, so a
stored timestamp of zero also passes the gate. -/
def shouldSample (lastAt : Option ℚ) (now : ℚ) : Bool :=
  match lastAt with
  | none => true
  | some m => if m = 0 then true else decide ((150 : ℚ) ≤ now - m)

/-- Front-of-buffer expiry loop of recordSubscribedHistories: shift samples
while the head is older than the cutoff. -/
def dropOld (cutoff : ℚ) : List HSample → List HSample
  | [] => []
  | x :: xs => if x.t < cutoff then dropOld cutoff xs else x :: xs

/-- History-buffer update on an accepted sample: append the new sample, expire
samples older than 10000 ms before now, and cap the buffer at 200 samples. -/
def recHist (hist : List HSample) (now temp pressure : ℚ) : List HSample :=
  let h1 := hist ++ [⟨now, temp, pressure⟩]
  let h2 := dropOld (now - 10000) h1
  if 200 < h2.length then h2.tail else h2

/-- One tile update of recordSubscribedHistories: gate on the 150 ms sample
spacing, then append, expire and cap the buffer. -/
def record (s : HState) (now temp pressure : ℚ) : HState :=
  if shouldSample s.lastSampleAt now then ⟨recHist s.history now temp pressure, some now⟩
  else s

/-- View of a store sample as a narration-side history sample: pH and gasSum
are never written by the store. -/
def toSample (h : HSample) : Sample :=
  ⟨h.t, some h.temp, some h.pressure, none, none⟩

/-! Narrator helpers (createNarrator closure of src/narration.js). -/

/-- Reaction index built once per narration session; later reactions with the
same id overwrite earlier ones, as with Object.fromEntries. -/
def rxIndex (rxs : List Reaction) (id : String) : Option Reaction :=
  rxs.foldl (fun acc r => if r.id == id then some r else acc) none

/-- Tag-presence test of the narrator: some tag contains the key as substring. -/
def tagHas (rx : Reaction) (key : String) : Bool :=
  rx.tags.any (fun t => strContains t key)

/-- First tag starting with the word exothermic, modelling exoLevel. -/
def exoLevel (rx : Reaction) : Option String :=
  rx.tags.find? (fun t => strStarts t "exothermic")

/-- Helper for the display-name fallback of niceName: drop characters through
the first closing parenthesis, or fail when none remains.  The result carries
its own length bound for termination of the caller. -/
def dropThroughClose : (l : List Char) → Option { r : List Char // r.length < l.length }
  | [] => none
  | c :: rest =>
    if c = ')' then some ⟨rest, by simp⟩
    else
      match dropThroughClose rest with
      | some ⟨r, h⟩ => some ⟨r, by simp only [List.length_cons]; omega⟩
      | none => none

/-- Display-name fallback of niceName: the global regex replacement that
deletes a trailing _g or _l, deletes parenthesized groups up to the nearest
closing parenthesis, and turns remaining underscores into spaces. -/
def stripName : List Char → List Char
  | [] => []
  | c :: rest =>
    if c = '(' then
      match dropThroughClose rest with
      | some rest2 => stripName rest2.1
      | none => c :: stripName rest
    else if c = '_' then
      if rest = ['g'] then []
      else if rest = ['l'] then []
      else ' ' :: stripName rest
    else c :: stripName rest
termination_by l => l.length
decreasing_by
  all_goals
    first
      | exact Nat.lt_trans rest2.2 (Nat.lt_succ_self rest.length)
      | simp

/-- Whitespace trim at both ends, modelling the JS String.trim method. -/
def trimChars (l : List Char) : List Char :=
  ((l.dropWhile (fun c => c.isWhitespace)).reverse.dropWhile
    (fun c => c.isWhitespace)).reverse

/-- Fallback display name derived from a species id. -/
def fallbackName (id : String) : String :=
  String.mk (trimChars (stripName id.data))

/-- Human-readable name of a species, modelling niceName: a truthy registry
display name wins, else the id is stripped of phase decorations. -/
def niceName (reg : Registry) (id : String) : String :=
  match reg id with
  | some m =>
    match m.displayName with
    | some d => if d = "" then fallbackName id else d
    | none => fallbackName id
  | none => fallbackName id

/-- Deduplication keeping first occurrences, modelling JS Set insertion order. -/
def firstDedup : List String → List String
  | [] => []
  | x :: xs => x :: (firstDedup xs).filter (fun y => ¬ y = x)

/-- Set insert modelling JS Set.add on an insertion-ordered set. -/
def addUnique (l : List String) (t : String) : List String :=
  if l.contains t then l else l ++ [t]

/-- Derived hazard tags of a material, modelling hazardsFor. -/
def hazardsFor (reg : Registry) (id : String) : List String :=
  match reg id with
  | none => []
  | some m =>
    let tags := firstDedup m.hazardTags
    let tags := if m.flammability = some "high" then addUnique tags "flammable" else tags
    let tags := if m.corrosivity = some "base" ∨ m.corrosivity = some "acid" then
        addUnique tags "caustic" else tags
    let tags := if m.corrosivity = some "oxidizer" ∨ tags.contains "oxidizer" then
        addUnique tags "oxidizer" else tags
    let tags := if m.toxicity = some "high" then addUnique tags "toxic" else tags
    tags

/-- Display color of a material, modelling colorWord; an empty color string is
falsy and reads as absent. -/
def colorWord (reg : Registry) (id : String) : Option String :=
  jsOrStr ((reg id).bind (fun m => m.color)) none

/-- Phase of a species: a truthy per-reaction phase override wins, else the
registry phase at standard conditions. -/
def phaseOf (reg : Registry) (rx : Option Reaction) (id : String) : Option String :=
  jsOrStr (rx.bind (fun r => lookupStr r.phases id))
    ((reg id).bind (fun m => m.phaseSTP))

/-- Gas-phase test of a product, modelling isGasProduct: structured phase g, or
an id ending in _g or in a parenthesized g. -/
def isGasProduct (reg : Registry) (id : String) (rx : Option Reaction) : Bool :=
  phaseOf reg rx id == some "g" || strEnds id "_g" || strEnds id "(g)"

/-- Solid-phase test of a product, modelling isSolidProduct. -/
def isSolidProduct (reg : Registry) (id : String) (rx : Option Reaction) : Bool :=
  phaseOf reg rx id == some "s" || strEnds id "(s)"

/-- Test modelling isBasicProduct: registry corrosivity class base. -/
def isBasicProduct (reg : Registry) (id : String) : Bool :=
  (reg id).bind (fun m => m.corrosivity) == some "base"

/-- Test modelling isAcidicProduct: registry corrosivity class acid. -/
def isAcidicProduct (reg : Registry) (id : String) : Bool :=
  (reg id).bind (fun m => m.corrosivity) == some "acid"

/-! Causal selector (pickActivity of src/narration.js). -/

/-- Loop of pickActivity.  The source keeps the best candidate and its score in
two variables with the score starting at minus infinity; since the stored
score always equals the stored candidate extent, the accumulator folds both
into one Option (none standing for the initial minus-infinity score). -/
def pickGo (rxs : List Reaction) (pred : Entry → Reaction → Bool) :
    List (Option Entry) → Option (Entry × Reaction) → Option (Entry × Reaction)
  | [], best => best
  | oe :: rest, best =>
    match oe with
    | none => pickGo rxs pred rest best
    | some e =>
      if e.extent ≤ 0 then pickGo rxs pred rest best
      else
        match rxIndex rxs e.id with
        | none => pickGo rxs pred rest best
        | some rx =>
          if pred e rx then
            let better := match best with
              | none => true
              | some b => decide (b.1.extent < e.extent)
            if better then pickGo rxs pred rest (some (e, rx))
            else pickGo rxs pred rest best
          else pickGo rxs pred rest best

/-- Causal selector over the activity list of a tile, modelling pickActivity:
skip falsy entries, non-positive extents, unknown reaction ids and entries
failing the predicate, and keep the first entry of strictly greatest extent. -/
def pickActivity (rxs : List Reaction) (tile : Tile)
    (pred : Entry → Reaction → Bool) : Option (Entry × Reaction) :=
  pickGo rxs pred tile.activity none

/-! Causal clause builders (becauseTemp, becausePH, becauseGas, becausePressure). -/

/-- Causal clause for a rising temperature trend, modelling becauseTemp. -/
def becauseTemp (reg : Registry) (rxs : List Reaction) (tile : Tile) : Option String :=
  match pickActivity rxs tile (fun e rx =>
      e.heat || decide (0 < rx.effects.heatPerUnit) ||
      rx.tags.any (fun t => strStarts t "exothermic")) with
  | none => none
  | some (_, rx) =>
    let reactants := (rx.reactants.map (fun p => niceName reg p.1)).take 2
    let head :=
      match reactants with
      | [a, b] => a ++ " and " ++ b
      | [a] => a
      | _ => niceName reg rx.id
    some ("temperature rising because " ++ head ++ " react exothermically")

/-- Causal clause for a pH trend in the given direction, modelling becausePH. -/
def becausePH (reg : Registry) (rxs : List Reaction) (tile : Tile) (dir : String) :
    Option String :=
  match pickActivity rxs tile (fun e _ =>
      if dir == "up" then e.products.any (fun p => isBasicProduct reg p.id)
      else e.products.any (fun p => isAcidicProduct reg p.id)) with
  | none => none
  | some (e, _) =>
    let prods := e.products.filter (fun p =>
      if dir == "up" then isBasicProduct reg p.id else isAcidicProduct reg p.id)
    let label := match prods with
      | p :: _ => niceName reg p.id
      | [] => "products"
    if dir == "up" then some ("pH increasing because " ++ label ++ " (basic) is forming")
    else some ("pH decreasing because " ++ label ++ " (acidic) is forming")

/-- Highest-quantity gas-phase product of an activity entry as computed by the
loops of becauseGas and becausePressure: the running quantity starts at zero
and is only replaced by a strictly greater one, so a gas product of
non-positive quantity is never selected. -/
def bestGasStrict (reg : Registry) (rx : Reaction) (products : List Product) :
    Option (String × ℚ) :=
  products.foldl (fun acc p =>
    if isGasProduct reg p.id (some rx) then
      match acc with
      | none => if (0 : ℚ) < p.qty then some (p.id, p.qty) else none
      | some (_, q) => if q < p.qty then some (p.id, p.qty) else acc
    else acc) none

/-- Causal clause for a rising gas trend, modelling becauseGas. -/
def becauseGas (reg : Registry) (rxs : List Reaction) (tile : Tile) : Option String :=
  match pickActivity rxs tile (fun e rx =>
      rx.effects.emitGas ||
      e.products.any (fun p => isGasProduct reg p.id (some rx)) ||
      tagHas rx "gas_evolution") with
  | none => none
  | some (e, rx) =>
    let gasId := (bestGasStrict reg rx e.products).map (fun p => p.1)
    let gasName := match gasId with
      | some g => niceName reg g
      | none => "gas"
    let hz := match gasId with
      | some g => hazardsFor reg g
      | none => []
    let flair := if hz.contains "flammable" then " (flammable)"
      else if hz.contains "toxic" then " (toxic)"
      else if hz.contains "oxidizer" then " (oxidizer)"
      else ""
    some ("gas increasing because " ++ gasName ++ flair ++ " is being released")

/-- Predicate of the pressure causal question, modelling the predicate passed
to pickActivity by becausePressure: a pressure-pulse effect, a gas-phase
product, or the gas-evolution tag. -/
def becausePressurePred (reg : Registry) (e : Entry) (rx : Reaction) : Bool :=
  rx.effects.pressurePulse ||
  e.products.any (fun p => isGasProduct reg p.id (some rx)) ||
  tagHas rx "gas_evolution"

/-- Causal clause for a building pressure trend, modelling becausePressure. -/
def becausePressure (reg : Registry) (rxs : List Reaction) (tile : Tile) : Option String :=
  match pickActivity rxs tile (becausePressurePred reg) with
  | none => none
  | some (e, rx) =>
    let gasId := (bestGasStrict reg rx e.products).map (fun p => p.1)
    let gasName := match gasId with
      | some g => niceName reg g
      | none => "gas"
    some ("pressure building because " ++ gasName ++ " is accumulating")

/-! Phrase library (describe functions and actorPhrase). -/

/-- Limiter trailer of a per-reaction sentence, modelling describeLimiter. -/
def describeLimiter (reg : Registry) (limiter : Option String) : String :=
  match limiter with
  | none => "rate-limited"
  | some l => if l = "" ∨ l = "rate" then "rate-limited"
      else "limited by " ++ niceName reg l

/-- Stable insertion step for a descending sort by a rational key; an element
moves past another only when its key is strictly greater, so equal keys keep
their original order, as the stable JS array sort does. -/
def insertDescBy {α : Type} (key : α → ℚ) (x : α) : List α → List α
  | [] => [x]
  | y :: ys => if key y < key x then x :: y :: ys else y :: insertDescBy key x ys

/-- Stable descending sort by a rational key, modelling the JS stable sort with
a subtraction comparator. -/
def sortDescBy {α : Type} (key : α → ℚ) (l : List α) : List α :=
  l.foldr (insertDescBy key) []

/-- Top-product listing of a per-reaction sentence, modelling describeProducts. -/
def describeProducts (reg : Registry) (products : List Product) (_rx : Reaction) :
    Option String :=
  match products with
  | [] => none
  | _ =>
    let sorted := sortDescBy (fun p => p.qty) products
    some (String.intercalate ", " ((sorted.take 3).map (fun p => niceName reg p.id)))

/-- Heat consequence clause, modelling describeHeat. -/
def describeHeat (rx : Reaction) (fx : Effects) : Option String :=
  if (exoLevel rx).isSome || decide (0 < fx.heatPerUnit) then some "heating the tile"
  else none

/-- Gas candidate of describeGas among the step products: the first gas-phase
product is taken regardless of quantity, later ones only on strictly greater
quantity. -/
def bestGasFirst (reg : Registry) (rx : Reaction) (products : List Product) :
    Option (String × ℚ) :=
  products.foldl (fun acc p =>
    if isGasProduct reg p.id (some rx) then
      match acc with
      | none => some (p.id, p.qty)
      | some (_, q) => if q < p.qty then some (p.id, p.qty) else acc
    else acc) none

/-- Gas consequence clause, modelling describeGas: prefer a dominant tile gas
species over the step products, else the best gas-phase product, else a
generic clause when the reaction is merely flagged for gas evolution. -/
def describeGas (reg : Registry) (rx : Reaction) (fx : Effects)
    (products : List Product) (tile : Option Tile) : Option String :=
  let rxSaysGas := tagHas rx "gas_evolution"
  let fxAddsGas := fx.emitGas
  let productGas := bestGasFirst reg rx products
  let tileGasList : List (String × ℚ) := (match tile with
    | some t => t.gas
    | none => []).filter (fun p => (0.05 : ℚ) < p.2)
  let tileGas := (sortDescBy (fun p => p.2) tileGasList).head?
  let label0 : Option String := match tileGas with
    | some gv =>
      (match productGas with
       | none => some gv.1
       | some pq => if pq.2 * (1.25 : ℚ) < gv.2 then some gv.1 else none)
    | none => none
  let label : Option String := match label0 with
    | some l => some l
    | none => productGas.map (fun p => p.1)
  match label with
  | some l =>
    let pretty := niceName reg l
    let htags := hazardsFor reg l
    let flair := if htags.contains "flammable" then " (flammable)"
      else if htags.contains "toxic" then " (toxic)"
      else if htags.contains "oxidizer" then " (oxidizer)"
      else ""
    some ("releasing " ++ pretty ++ flair)
  | none =>
    if rxSaysGas || fxAddsGas || productGas.isSome then some "releasing gas" else none

/-- Display label of a reaction, modelling reactionLabel. -/
def underscoreToSpace (s : String) : String :=
  String.mk (s.data.map (fun c => if c = '_' then ' ' else c))

/-- Reaction display label: a truthy equation string, else the id with
underscores replaced by spaces, else the word reaction. -/
def reactionLabel (rx : Reaction) : String :=
  match jsOrStr rx.equation none with
  | some e => e
  | none => underscoreToSpace (if rx.id = "" then "reaction" else rx.id)

/-- Actor clause of a per-reaction sentence, modelling actorPhrase. -/
def actorPhrase (reg : Registry) (rx : Reaction) : String :=
  let rcts := rx.reactants.map (fun p => p.1)
  let hasWater := rcts.any (fun id =>
    id == "H2O" || id == "H2O_g" || id == "H2O(g)" || id == "H2O(l)")
  let hasAcid := rcts.any (fun id =>
    match reg id with
    | some m => m.corrosivity == some "acid" || m.hazardTags.contains "acid"
    | none => false)
  let hasBase := rcts.any (fun id =>
    match reg id with
    | some m => m.corrosivity == some "base" || m.hazardTags.contains "base"
    | none => false)
  let hasMetal := rcts.any (fun id =>
    match reg id with
    | some m => m.phaseSTP == some "s" && m.hazardTags.contains "water_reactive"
    | none => false)
  if hasAcid && hasBase then "The acid is neutralizing the base"
  else if hasMetal && hasWater then "The metal is reacting with water"
  else if hasAcid then "The acid is reacting with a reactant"
  else if hasBase then "The base is reacting with a reactant"
  else "A reaction is proceeding"

/-- Replacement of the first occurrence of a string in a list, modelling the
indexOf-plus-splice step of describeReactionEntry. -/
def replaceFirst : List String → String → String → List String
  | [], _, _ => []
  | x :: xs, tgt, repl => if x = tgt then repl :: xs else x :: replaceFirst xs tgt repl

/-- Per-reaction sentence, modelling describeReactionEntry.  The transient tile
back-reference of the source is passed explicitly as an optional tile. -/
def describeReactionEntry (reg : Registry) (rxs : List Reaction)
    (tile : Option Tile) (e : Entry) : Option String :=
  match rxIndex rxs e.id with
  | none => none
  | some rx =>
    let fx := rx.effects
    let actor := actorPhrase reg rx
    let cons1 : List String := match describeHeat rx fx with
      | some h => [h]
      | none => []
    let gas := describeGas reg rx fx e.products tile
    let cons2 := match gas with
      | some g => cons1 ++ [g]
      | none => cons1
    let prods := describeProducts reg e.products rx
    let cons3 := match prods, gas with
      | some ps, none =>
        (match e.products.find? (fun p => isSolidProduct reg p.id (some rx)) with
         | some sp =>
           (match colorWord reg sp.id with
            | some col => cons2 ++
                ["forming a " ++ col ++ " precipitate (" ++ niceName reg sp.id ++ ")"]
            | none => cons2 ++ ["forming a precipitate (" ++ niceName reg sp.id ++ ")"])
         | none => cons2 ++ ["forming " ++ ps])
      | some _, some _ =>
        (match e.products.find? (fun p => isGasProduct reg p.id (some rx)) with
         | some gp => replaceFirst cons2 "releasing gas" ("releasing " ++ niceName reg gp.id)
         | none => cons2)
      | none, _ => cons2
    let limiter := describeLimiter reg e.limiter
    let intensity := jsRound ((ratMin 1 e.extent) * 100)
    let consText := if cons3.isEmpty then ""
      else ", " ++ String.intercalate " and " cons3
    some (actor ++ consText ++ ". Intensity " ++ toString intensity ++ "%, " ++
      limiter ++ ".")

/-! Production-insight aggregation (buildProductionInsights). -/

/-- One contributing source of a produced species. -/
structure ProdSource where
  entry : Entry
  rx : Reaction
  qty : ℚ

/-- Insertion-ordered multimap update, modelling the Map of
buildProductionInsights. -/
def addProduction : List (String × List ProdSource) → String → ProdSource →
    List (String × List ProdSource)
  | [], pid, s => [(pid, [s])]
  | (k, arr) :: rest, pid, s =>
    if k = pid then (k, arr ++ [s]) :: rest
    else (k, arr) :: addProduction rest pid s

/-- One activity step of the production grouping loop of
buildProductionInsights: skip falsy entries, non-positive extents and unknown
reaction ids, then fold the positive-quantity products into the map. -/
def prodStep (rxs : List Reaction) (m : List (String × List ProdSource))
    (oe : Option Entry) : List (String × List ProdSource) :=
  match oe with
  | none => m
  | some e =>
    if e.extent ≤ 0 then m
    else
      match rxIndex rxs e.id with
      | none => m
      | some rx =>
        e.products.foldl (fun m2 p =>
          if p.qty ≤ 0 then m2 else addProduction m2 p.id ⟨e, rx, p.qty⟩) m

/-- Grouping of all positive-quantity products of the running activities by
product id, in first-encounter order. -/
def productionsOf (rxs : List Reaction) (acts : List (Option Entry)) :
    List (String × List ProdSource) :=
  acts.foldl (prodStep rxs) []

/-- Guidance line for one produced species. -/
def productionLine (reg : Registry) (pid : String) (sources : List ProdSource) :
    Option String :=
  match sources with
  | [] => none
  | s0 :: _ =>
    let prodName := niceName reg pid
    let sourceLabels := firstDedup (sources.map (fun s => reactionLabel s.rx))
    let limiter := match s0.entry.limiter with
      | some l => if l = "" ∨ l = "rate" then none else some (niceName reg l)
      | none => none
    let reactants := s0.rx.reactants.map (fun p => niceName reg p.1)
    let increase := match limiter with
      | some l => "adding more " ++ l
      | none =>
        match reactants with
        | [] => "supplying more reactants"
        | _ => "supplying more " ++ String.intercalate ", " reactants
    let decrease := match reactants with
      | [] => "reducing the available reactants"
      | _ => "removing " ++ String.intercalate ", " reactants
    some (prodName ++ " is being produced by " ++
      String.intercalate " and " sourceLabels ++ ". Increase production by " ++
      increase ++ ". Reduce it by " ++ decrease ++ ".")

/-- Production-insight lines of a tile, modelling buildProductionInsights. -/
def buildProductionInsights (reg : Registry) (rxs : List Reaction) (tile : Tile) :
    List String :=
  (productionsOf rxs tile.activity).filterMap (fun kv => productionLine reg kv.1 kv.2)

/-! Narrative composer (summarizeTile and narrateTile). -/

/-- One-paragraph tile summary, modelling summarizeTile. -/
def summarizeTile (reg : Registry) (rxs : List Reaction) (tile : Tile) : String :=
  let tempWord :=
    if (120 : ℚ) ≤ tile.temp then "very hot"
    else if (60 : ℚ) ≤ tile.temp then "hot"
    else if tile.temp ≤ 0 then "freezing"
    else if tile.temp < 20 then "cool"
    else "temperate"
  let tempTrend := trendLabelTemp tile.history
  let bits0 := [tempWord ++ tempTrend]
  let phWord :=
    if tile.pH ≤ 2 then "strongly acidic"
    else if tile.pH < 6 then "slightly acidic"
    else if 8 < tile.pH ∧ tile.pH < 12 then "slightly basic"
    else if 12 ≤ tile.pH then "strongly basic"
    else "near neutral"
  let bits1 := bits0 ++ [phWord]
  let gasLevel := tile.gas.foldl (fun a p => a + p.2) 0
  let bits2 :=
    if 1 < gasLevel then bits1 ++ ["gassy"]
    else if (0.1 : ℚ) < gasLevel then bits1 ++ ["traces of gas"]
    else bits1
  let bits := if 4 < tile.pressure then bits2 ++ ["pressurized"] else bits2
  let pTrend := trendLabelPressure tile.history
  let phTrend := trendLabelPH tile.history
  let gTrend := trendLabelGas tile.history
  let trendBits := [pTrend, phTrend, gTrend].filterMap id
  let head := (if bits.isEmpty then "stable" else String.intercalate ", " bits) ++
    (if trendBits.isEmpty then "" else "; " ++ String.intercalate ", " trendBits)
  let b1 : List String :=
    if strContains tempTrend "heating up" then
      match becauseTemp reg rxs tile with
      | some s => [s]
      | none => []
    else []
  let b2 :=
    if pTrend == some "pressure building" then
      match becausePressure reg rxs tile with
      | some s => b1 ++ [s]
      | none => b1
    else b1
  let b3 := match phTrend with
    | some pt =>
      let dirOpt := if strContains pt "basic" then some "up"
        else if strContains pt "acidic" then some "down"
        else none
      (match dirOpt with
       | some dir =>
         (match becausePH reg rxs tile dir with
          | some s => b2 ++ [s]
          | none => b2)
       | none => b2)
    | none => b2
  let b4 :=
    if gTrend == some "gas building" then
      match becauseGas reg rxs tile with
      | some s => b3 ++ [s]
      | none => b3
    else b3
  let becauseText := if b4.isEmpty then ""
    else " Because: " ++ String.intercalate "; " b4 ++ "."
  let speciesPairs :=
    ((sortDescBy (fun p => p.2)
        (tile.species.filter (fun p => (0.0001 : ℚ) < p.2))).take 2).map
      (fun p => niceName reg p.1)
  let speciesText := if speciesPairs.isEmpty then ""
    else " Notable species: " ++ String.intercalate ", " speciesPairs ++ "."
  "This tile is " ++ (head ++ "." ++ becauseText ++ speciesText)

/-- Top-level narration entry point, modelling narrateTile: the summary,
followed by up to three per-reaction sentences in descending-extent order,
followed by the production-insight lines, with a fallback line when both of
the latter groups are empty. -/
def narrateTile (reg : Registry) (rxs : List Reaction) (tile : Tile) : List String :=
  let acts := (sortDescBy (fun e => e.extent) (tile.activity.filterMap id)).take 3
  let rLines := acts.filterMap (fun a => describeReactionEntry reg rxs (some tile) a)
  let pLines := buildProductionInsights reg rxs tile
  summarizeTile reg rxs tile ::
    (rLines ++ pLines ++
      (if acts.isEmpty && pLines.isEmpty then ["No active reactions detected."] else []))

/-! Specification-side definitions, written from the wording of the spec and
of the claims, to be compared with the source-side definitions above. -/

/-- Trend computation as worded by the spec: the window is the last
min(3, length) samples, fewer than two samples or a non-positive elapsed time
give flat, and otherwise the slope of the field (missing values read as zero)
is compared against the epsilon threshold. -/
def trendOfSpec (history : List Sample) (field : Sample → Option ℚ) (eps : ℚ) : Trend :=
  let w := history.drop (history.length - min 3 history.length)
  if history.length < 2 then Trend.flat
  else
    match w.head?, w.getLast? with
    | some first, some lastS =>
      let elapsed := (lastS.t - first.t) / 1000
      if elapsed ≤ 0 then Trend.flat
      else
        let slope := ((field lastS).getD 0 - (field first).getD 0) / elapsed
        if eps < slope then Trend.up
        else if slope < -eps then Trend.down
        else Trend.flat
    | _, _ => Trend.flat

/-- Surviving candidates of the causal selector as worded by the claim: falsy
entries, non-positive extents, unknown reaction ids and entries failing the
predicate are discarded, in order. -/
def survivors (rxs : List Reaction) (pred : Entry → Reaction → Bool)
    (acts : List (Option Entry)) : List (Entry × Reaction) :=
  acts.filterMap (fun oe =>
    match oe with
    | none => none
    | some e =>
      if e.extent ≤ 0 then none
      else
        match rxIndex rxs e.id with
        | none => none
        | some rx => if pred e rx then some (e, rx) else none)

/-- Correctness statement of one step of the causal-selector loop: relative to
the surviving candidates still to be scanned and the best candidate so far,
the result is either the unbeaten incoming candidate or the first
strictly-greatest-extent survivor. -/
def PickSpec (l : List (Entry × Reaction)) (best res : Option (Entry × Reaction)) : Prop :=
  match res with
  | none => l = [] ∧ best = none
  | some r =>
    (best = some r ∧ ∀ y ∈ l, y.1.extent ≤ r.1.extent) ∨
    (∃ l₁ l₂, l = l₁ ++ r :: l₂ ∧
      (∀ b, best = some b → b.1.extent < r.1.extent) ∧
      (∀ y ∈ l₁, y.1.extent < r.1.extent) ∧
      (∀ y ∈ l₂, y.1.extent ≤ r.1.extent))

/-- Pressure causal predicate as worded by the claim: a pressure-pulse effect
or a gas-phase product, with no other acceptance condition. -/
def becausePressurePredSpec (reg : Registry) (e : Entry) (rx : Reaction) : Bool :=
  rx.effects.pressurePulse ||
  e.products.any (fun p => isGasProduct reg p.id (some rx))

/-- History-buffer invariant of the store: sample times ascending, at most 200
samples, and every retained sample time bounded by the last-append timestamp
(with an empty buffer before the first append). -/
def Inv (s : HState) : Prop :=
  List.Pairwise (fun x y => x.t ≤ y.t) s.history ∧
  s.history.length ≤ 200 ∧
  (match s.lastSampleAt with
   | none => s.history = []
   | some m => ∀ x ∈ s.history, x.t ≤ m)

/-! Concrete instances used by the scenario claims, the counterexamples and
the witnesses. -/

/-- Registry with no materials. -/
def emptyReg : Registry := fun _ => none

/-- Cell of the first scenario: temperate, neutral, empty maps, no activity,
no history. -/
def c1tile : Tile := ⟨25, 7, 1/2, 0, [], [], [], []⟩

/-- Activity entry referencing a reaction id that is absent from the index. -/
def c4entry : Entry := ⟨"bogus", 1/2, none, false, false, []⟩

/-- Cell whose only activity entry references an unknown reaction id. -/
def c4tileA : Tile := ⟨25, 7, 1/2, 0, [], [], [], [some c4entry]⟩

/-- The same cell with the unknown-id entry removed. -/
def c4tileB : Tile := ⟨25, 7, 1/2, 0, [], [], [], []⟩

/-- History whose pH drift over the window is exactly 0.02. -/
def c5hist : List Sample :=
  [⟨0, none, none, some (15/2), none⟩, ⟨1000, none, none, some (188/25), none⟩]

/-- History with a clear upward pH drift, used by the amended-claim witness. -/
def c5whist : List Sample :=
  [⟨0, none, none, some 7, none⟩, ⟨1000, none, none, some (15/2), none⟩]

/-- Reaction carrying only the gas-evolution tag: no pressure-pulse effect and
no products. -/
def c6rx : Reaction := ⟨"fizz", none, ["gas_evolution"], [], [], ⟨0, false, false⟩⟩

/-- Activity entry for the gas-evolution-tagged reaction, with no products. -/
def c6entry : Entry := ⟨"fizz", 1/2, none, false, false, []⟩

/-- Registry of the neutralization scenario: an acid, a base, and liquid water
whose display name is its own id. -/
def c7reg : Registry := fun id =>
  if id = "HCl" then some ⟨none, none, some "acid", [], none, none, none⟩
  else if id = "NaOH" then some ⟨none, none, some "base", [], none, none, none⟩
  else if id = "H2O" then some ⟨some "H2O", some "l", none, [], none, none, none⟩
  else none

/-- Acid plus base neutralization reaction. -/
def c7rx : Reaction :=
  ⟨"neutralization", none, [], [("HCl", 1), ("NaOH", 1)], [], ⟨0, false, false⟩⟩

/-- Activity entry of the neutralization scenario: extent 0.8, no limiter, and
two units of water as the only product. -/
def c7entry : Entry := ⟨"neutralization", 4/5, none, false, false, [⟨"H2O", 2⟩]⟩

/-! Helper lemmas. -/

theorem setActivity_temp (tile : Tile) (l : List (Option Entry)) :
    (setActivity tile l).temp = tile.temp := rfl

theorem setActivity_pH (tile : Tile) (l : List (Option Entry)) :
    (setActivity tile l).pH = tile.pH := rfl

theorem setActivity_pressure (tile : Tile) (l : List (Option Entry)) :
    (setActivity tile l).pressure = tile.pressure := rfl

theorem setActivity_gas (tile : Tile) (l : List (Option Entry)) :
    (setActivity tile l).gas = tile.gas := rfl

theorem setActivity_species (tile : Tile) (l : List (Option Entry)) :
    (setActivity tile l).species = tile.species := rfl

theorem setActivity_history (tile : Tile) (l : List (Option Entry)) :
    (setActivity tile l).history = tile.history := rfl

theorem setActivity_activity (tile : Tile) (l : List (Option Entry)) :
    (setActivity tile l).activity = l := rfl

theorem getLastD_mem {α : Type} : ∀ (l : List α) (a : α), l.getLastD a ∈ a :: l
  | [], _ => by simp [List.getLastD]
  | x :: xs, a => by
    rw [List.getLastD_cons]
    have h := getLastD_mem xs x
    simp only [List.mem_cons] at h ⊢
    tauto

theorem getLast?_cons_getLastD {α : Type} :
    ∀ (a : α) (l : List α), (a :: l).getLast? = some (l.getLastD a)
  | _, [] => rfl
  | a, b :: l => by
    rw [List.getLastD_cons, List.getLast?_cons_cons, getLast?_cons_getLastD b l]

theorem lastN_eq_some {l h : List Sample} {n : Nat} (hh : lastN l n = some h) :
    h = l.drop (l.length - min n l.length) ∧ 2 ≤ l.length := by
  by_cases hl : l.length < 2
  · simp [lastN, hl] at hh
  · simp only [lastN, if_neg hl, Option.some.injEq] at hh
    exact ⟨hh.symm, by omega⟩

/-! C1: the empty temperate scenario. -/

/-- C1: for a cell with temperature 25, pH 7, moisture 0.5, pressure 0, empty
gas and aqueous maps, no activity and no history, narrateTile returns exactly
the summary line and the no-active-reactions line. -/
theorem claim_C1 (reg : Registry) (rxs : List Reaction) :
    narrateTile reg rxs c1tile =
      ["This tile is temperate, near neutral.", "No active reactions detected."] := by
  with_unfolding_all rfl

/-! C7: the acid-base neutralization scenario sentence. -/

/-- C7: for an acid plus base neutralization activity of extent 0.8 with no
limiter and only the non-gas non-solid product H2O of quantity 2, the
per-reaction sentence is exactly the neutralization sentence with the registry
display name of H2O. -/
theorem claim_C7 :
    describeReactionEntry c7reg [c7rx] none c7entry =
      some "The acid is neutralizing the base, forming H2O. Intensity 80%, rate-limited." := by
  with_unfolding_all decide

/-! C4: an unknown reaction id is not fully equivalent to entry removal. -/

/-- C4 counterexample: a cell whose only activity entry references an unknown
reaction id narrates differently from the same cell with that entry removed,
because the entry still counts toward the empty-activity check that emits the
no-active-reactions line. -/
theorem claim_C4_cex :
    narrateTile emptyReg [] c4tileA ≠ narrateTile emptyReg [] c4tileB := by
  with_unfolding_all decide

/-! C5: the pH drift threshold is inclusive at 0.02. -/

/-- C5 counterexample: with a window drift of exactly 0.02 (pH 7.5 to 7.52)
the code emits a clause although the drift does not exceed 0.02, so
emission is not equivalent to the drift strictly exceeding the threshold. -/
theorem claim_C5_cex :
    trendLabelPH c5hist = some "becoming more basic" ∧
    ¬ ((0.02 : ℚ) < ratAbs ((188/25 : ℚ) - 15/2)) := by
  with_unfolding_all decide

/-! C6: the pressure predicate also accepts the gas-evolution tag. -/

/-- C6 counterexample: a reaction with only the gas-evolution tag (no
pressure-pulse effect, no products at all) is accepted by the pressure causal
predicate although the claimed characterization rejects it. -/
theorem claim_C6_cex :
    becausePressurePred emptyReg c6entry c6rx = true ∧
    becausePressurePredSpec emptyReg c6entry c6rx = false := by
  with_unfolding_all decide

/-- C6 amended: the pressure causal predicate accepts an activity exactly when
its reaction has a pressure-pulse effect, or the product list contains a
gas-phase product, or the reaction carries a tag containing gas_evolution. -/
theorem claim_C6_amended (reg : Registry) (e : Entry) (rx : Reaction) :
    becausePressurePred reg e rx = true ↔
      (rx.effects.pressurePulse = true ∨
       (∃ p ∈ e.products, isGasProduct reg p.id (some rx) = true) ∨
       tagHas rx "gas_evolution" = true) := by
  simp only [becausePressurePred, Bool.or_eq_true, List.any_eq_true]
  exact or_assoc

/-! C8: the narration always starts with a well-formed summary. -/

/-- C8: for every cell, narrateTile returns a non-empty list whose first
element is the summarizeTile output, and that summary is a non-empty string
beginning with the words This tile is. -/
theorem claim_C8 (reg : Registry) (rxs : List Reaction) (tile : Tile) :
    narrateTile reg rxs tile ≠ [] ∧
    (narrateTile reg rxs tile).head? = some (summarizeTile reg rxs tile) ∧
    summarizeTile reg rxs tile ≠ "" ∧
    ∃ r, summarizeTile reg rxs tile = "This tile is " ++ r := by
  have hx : ∃ r, summarizeTile reg rxs tile = "This tile is " ++ r := ⟨_, rfl⟩
  have hhd : (narrateTile reg rxs tile).head? = some (summarizeTile reg rxs tile) := rfl
  refine ⟨?_, hhd, ?_, hx⟩
  · intro h
    rw [h] at hhd
    exact Option.noConfusion hhd
  · obtain ⟨r, hr⟩ := hx
    rw [hr]
    intro h
    have hlen := congrArg String.length h
    rw [String.length_append] at hlen
    have h13 : ("This tile is " : String).length = 13 := rfl
    have h0 : ("" : String).length = 0 := rfl
    rw [h13, h0] at hlen
    omega

/-! C2: characterization of the trend function. -/

/-- C2: the trend function agrees everywhere with the specification wording:
window of the last min(3, length) samples, flat for short histories or
non-positive elapsed seconds, and otherwise the sign of the slope against the
epsilon threshold, with missing field values read as zero. -/
theorem claim_C2 (history : List Sample) (field : Sample → Option ℚ) (eps : ℚ) :
    trendOf history field eps = trendOfSpec history field eps := by
  unfold trendOf trendOfSpec lastN
  by_cases hl : history.length < 2
  · simp [hl]
  · simp only [if_neg hl]
    have hw2 : 2 ≤ (history.drop (history.length - min 3 history.length)).length := by
      rw [List.length_drop]
      omega
    cases hwE : history.drop (history.length - min 3 history.length) with
    | nil => rw [hwE] at hw2; simp at hw2
    | cons first rest =>
      cases rest with
      | nil => rw [hwE] at hw2; simp at hw2
      | cons b t =>
        rw [getLast?_cons_getLastD]
        simp only [List.head?_cons]

/-! C10: store-produced histories never trigger pH or gas trend clauses. -/

theorem trendOf_none_field (history : List Sample) (field : Sample → Option ℚ)
    (eps : ℚ) (heps : 0 < eps) (hnone : ∀ x ∈ history, field x = none) :
    trendOf history field eps = Trend.flat := by
  unfold trendOf
  cases hw : lastN history 3 with
  | none => rfl
  | some h =>
    obtain ⟨heq, _⟩ := lastN_eq_some hw
    have hsub : ∀ x ∈ h, x ∈ history := by
      intro x hx
      rw [heq] at hx
      exact List.drop_subset _ _ hx
    cases h with
    | nil => rfl
    | cons first rest =>
      cases rest with
      | nil => rfl
      | cons b t =>
        have hf1 : field first = none := hnone _ (hsub _ (by simp))
        have hf2 : field ((b :: t).getLastD first) = none :=
          hnone _ (hsub _ (getLastD_mem (b :: t) first))
        simp only [hf1, hf2, Option.getD_none, sub_self, zero_div]
        split_ifs with hdt hup hdown
        · rfl
        · exact absurd hup (by linarith)
        · exact absurd hdown (by linarith)
        · rfl

/-- C10: every sample the store appends carries only time, temperature and
pressure, so on a history produced solely by the store the pH trend label and
the gas trend label are both absent, and the corresponding summary clauses are
never emitted. -/
theorem claim_C10 (hist : List HSample) :
    trendLabelPH (hist.map toSample) = none ∧
    trendLabelGas (hist.map toSample) = none := by
  have hfields : ∀ x ∈ hist.map toSample, x.pH = none ∧ x.gasSum = none := by
    intro x hx
    obtain ⟨y, _, rfl⟩ := List.mem_map.1 hx
    exact ⟨rfl, rfl⟩
  constructor
  · unfold trendLabelPH
    cases hw : lastN (hist.map toSample) 3 with
    | none => rfl
    | some h =>
      obtain ⟨heq, _⟩ := lastN_eq_some hw
      have hsub : ∀ x ∈ h, x ∈ hist.map toSample := by
        intro x hx
        rw [heq] at hx
        exact List.drop_subset _ _ hx
      cases h with
      | nil => rfl
      | cons first rest =>
        cases rest with
        | nil => rfl
        | cons b t =>
          have h1 : first.pH = none := (hfields first (hsub _ (by simp))).1
          simp only [h1]
  · unfold trendLabelGas
    rw [trendOf_none_field (hist.map toSample) (fun s => s.gasSum) (0.01 : ℚ)
      (by norm_num) (fun x hx => (hfields x hx).2)]

/-! C5: the amended pH-drift rule. -/

/-- C5 amended: over the pH window, a clause is emitted exactly when the
absolute drift is at least 0.02 (not strictly greater); when emitted it is
neutralizing for a window-end pH strictly inside (6.8, 7.2) regardless of the
drift sign, else the drift sign picks basic or acidic; a missing pH at either
endpoint suppresses the clause. -/
theorem claim_C5_amended (hist : List Sample) (first : Sample) (rest : List Sample)
    (hw : lastN hist 3 = some (first :: rest)) :
    ((first.pH = none ∨ (rest.getLastD first).pH = none) → trendLabelPH hist = none) ∧
    (∀ a b, first.pH = some a → (rest.getLastD first).pH = some b →
      ((trendLabelPH hist = none ↔ ratAbs (b - a) < (0.02 : ℚ)) ∧
       ((0.02 : ℚ) ≤ ratAbs (b - a) →
         trendLabelPH hist = some (
           if (6.8 : ℚ) < b ∧ b < (7.2 : ℚ) then "neutralizing"
           else if 0 < b - a then "becoming more basic"
           else "becoming more acidic")))) := by
  cases rest with
  | nil =>
    unfold trendLabelPH
    rw [hw]
    constructor
    · intro _
      rfl
    · intro a b ha hb
      have hnil : (([] : List Sample).getLastD first) = first := rfl
      rw [hnil, ha] at hb
      cases hb
      refine ⟨⟨fun _ => ?_, fun _ => rfl⟩, fun hge => ?_⟩
      · rw [sub_self]
        unfold ratAbs
        norm_num
      · rw [sub_self] at hge
        unfold ratAbs at hge
        norm_num at hge
  | cons c t =>
    unfold trendLabelPH
    rw [hw]
    constructor
    · rintro (h1 | h2)
      · simp only [h1]
      · cases hfp : first.pH with
        | none => simp only [hfp]
        | some a => simp only [hfp, h2]
    · intro a b ha hb
      simp only [ha, hb]
      constructor
      · constructor
        · intro h
          by_contra hlt
          rw [if_neg hlt] at h
          split_ifs at h
        · intro hlt
          rw [if_pos hlt]
      · intro hge
        rw [if_neg (not_lt.2 hge)]
        split_ifs <;> rfl

/-- C5 amended witness: a clear upward drift of 0.5 over one second emits the
becoming-more-basic clause. -/
theorem claim_C5_amended_witness : trendLabelPH c5whist = some "becoming more basic" := by
  have h := (claim_C5_amended c5whist ⟨0, none, none, some 7, none⟩
    [⟨1000, none, none, some (15/2), none⟩] (by with_unfolding_all rfl)).2 7 (15/2) rfl rfl
  rw [h.2 (by with_unfolding_all decide)]
  with_unfolding_all decide

/-! C3: characterization of the causal selector. -/

theorem pickSpec_base (best : Option (Entry × Reaction)) : PickSpec [] best best := by
  cases best with
  | none => exact ⟨rfl, rfl⟩
  | some b => exact Or.inl ⟨rfl, by simp⟩

theorem pickSpec_cons_new (l : List (Entry × Reaction)) (best res : Option (Entry × Reaction))
    (y : Entry × Reaction)
    (hbetter : ∀ b, best = some b → b.1.extent < y.1.extent)
    (h : PickSpec l (some y) res) : PickSpec (y :: l) best res := by
  cases res with
  | none => exact absurd h.2 (by simp)
  | some r =>
    rcases h with ⟨h1, h2⟩ | ⟨l₁, l₂, heq, hbc, h1, h2⟩
    · cases h1
      exact Or.inr ⟨[], l, by simp, hbetter, by simp, h2⟩
    · refine Or.inr ⟨y :: l₁, l₂, by simp [heq], ?_, ?_, h2⟩
      · intro b hb
        exact lt_trans (hbetter b hb) (hbc y rfl)
      · intro z hz
        rcases List.mem_cons.1 hz with rfl | hz2
        · exact hbc _ rfl
        · exact h1 z hz2

theorem pickSpec_cons_keep (l : List (Entry × Reaction)) (best res : Option (Entry × Reaction))
    (y b : Entry × Reaction)
    (hb : best = some b) (hle : y.1.extent ≤ b.1.extent)
    (h : PickSpec l best res) : PickSpec (y :: l) best res := by
  cases res with
  | none =>
    rw [h.2] at hb
    exact Option.noConfusion hb
  | some r =>
    rcases h with ⟨h1, h2⟩ | ⟨l₁, l₂, heq, hbc, h1, h2⟩
    · refine Or.inl ⟨h1, ?_⟩
      intro z hz
      rcases List.mem_cons.1 hz with rfl | hz2
      · have hbr : b = r := by
          rw [hb] at h1
          exact Option.some.inj h1
        rw [← hbr]
        exact hle
      · exact h2 z hz2
    · refine Or.inr ⟨y :: l₁, l₂, by simp [heq], hbc, ?_, h2⟩
      intro z hz
      rcases List.mem_cons.1 hz with rfl | hz2
      · exact lt_of_le_of_lt hle (hbc b hb)
      · exact h1 z hz2

theorem pickGo_char (rxs : List Reaction) (pred : Entry → Reaction → Bool) :
    ∀ (acts : List (Option Entry)) (best : Option (Entry × Reaction)),
    PickSpec (survivors rxs pred acts) best (pickGo rxs pred acts best) := by
  intro acts
  induction acts with
  | nil => intro best; exact pickSpec_base best
  | cons oe rest ih =>
    intro best
    cases oe with
    | none =>
      have hs : survivors rxs pred (none :: rest) = survivors rxs pred rest := by
        simp [survivors]
      rw [hs]
      exact ih best
    | some e =>
      by_cases h0 : e.extent ≤ 0
      · have hs : survivors rxs pred (some e :: rest) = survivors rxs pred rest := by
          simp [survivors, h0]
        have hp : pickGo rxs pred (some e :: rest) best = pickGo rxs pred rest best := by
          simp [pickGo, h0]
        rw [hs, hp]
        exact ih best
      · cases hrx : rxIndex rxs e.id with
        | none =>
          have hs : survivors rxs pred (some e :: rest) = survivors rxs pred rest := by
            simp [survivors, h0, hrx]
          have hp : pickGo rxs pred (some e :: rest) best = pickGo rxs pred rest best := by
            simp [pickGo, h0, hrx]
          rw [hs, hp]
          exact ih best
        | some rx =>
          by_cases hpred : pred e rx
          · have hs : survivors rxs pred (some e :: rest) =
                (e, rx) :: survivors rxs pred rest := by
              simp [survivors, h0, hrx, hpred]
            rw [hs]
            cases best with
            | none =>
              have hp : pickGo rxs pred (some e :: rest) none =
                  pickGo rxs pred rest (some (e, rx)) := by
                simp [pickGo, h0, hrx, hpred]
              rw [hp]
              exact pickSpec_cons_new _ _ _ (e, rx)
                (fun b hb => Option.noConfusion hb) (ih (some (e, rx)))
            | some b =>
              by_cases hlt : b.1.extent < e.extent
              · have hp : pickGo rxs pred (some e :: rest) (some b) =
                    pickGo rxs pred rest (some (e, rx)) := by
                  simp [pickGo, h0, hrx, hpred, hlt]
                rw [hp]
                refine pickSpec_cons_new _ _ _ (e, rx) ?_ (ih (some (e, rx)))
                intro b2 hb2
                cases Option.some.inj hb2
                exact hlt
              · have hp : pickGo rxs pred (some e :: rest) (some b) =
                    pickGo rxs pred rest (some b) := by
                  simp [pickGo, h0, hrx, hpred, hlt]
                rw [hp]
                exact pickSpec_cons_keep _ _ _ (e, rx) b rfl (not_lt.1 hlt) (ih (some b))
          · have hs : survivors rxs pred (some e :: rest) = survivors rxs pred rest := by
              simp [survivors, h0, hrx, hpred]
            have hp : pickGo rxs pred (some e :: rest) best = pickGo rxs pred rest best := by
              simp [pickGo, h0, hrx, hpred]
            rw [hs, hp]
            exact ih best

/-- C3: the causal selector discards falsy entries, non-positive extents,
unknown reaction ids and predicate failures, and among the survivors it
returns the first entry of strictly greatest extent (ties keep the earlier
entry); it returns none exactly when no entry survives. -/
theorem claim_C3 (rxs : List Reaction) (tile : Tile) (pred : Entry → Reaction → Bool) :
    match pickActivity rxs tile pred with
    | none => survivors rxs pred tile.activity = []
    | some r =>
      ∃ l₁ l₂, survivors rxs pred tile.activity = l₁ ++ r :: l₂ ∧
        (∀ y ∈ l₁, y.1.extent < r.1.extent) ∧
        (∀ y ∈ l₂, y.1.extent ≤ r.1.extent) := by
  have h := pickGo_char rxs pred tile.activity none
  unfold pickActivity
  cases hp : pickGo rxs pred tile.activity none with
  | none =>
    rw [hp] at h
    exact h.1
  | some r =>
    rw [hp] at h
    rcases h with ⟨hb, _⟩ | ⟨l₁, l₂, heq, _, h1, h2⟩
    · exact Option.noConfusion hb
    · exact ⟨l₁, l₂, heq, h1, h2⟩

/-! C4: what an unknown reaction id does and does not affect. -/

theorem pickGo_skip (rxs : List Reaction) (pred : Entry → Reaction → Bool) (e : Entry)
    (hid : rxIndex rxs e.id = none) :
    ∀ (a1 a2 : List (Option Entry)) (best : Option (Entry × Reaction)),
    pickGo rxs pred (a1 ++ some e :: a2) best = pickGo rxs pred (a1 ++ a2) best := by
  intro a1
  induction a1 with
  | nil =>
    intro a2 best
    simp only [List.nil_append]
    by_cases h0 : e.extent ≤ 0
    · simp [pickGo, h0]
    · simp [pickGo, h0, hid]
  | cons oe rest ih =>
    intro a2 best
    simp only [List.cons_append]
    cases oe with
    | none =>
      simp only [pickGo]
      exact ih a2 best
    | some e2 =>
      simp only [pickGo]
      by_cases h0 : e2.extent ≤ 0
      · simp only [if_pos h0]
        exact ih a2 best
      · simp only [if_neg h0]
        cases hrx : rxIndex rxs e2.id with
        | none => exact ih a2 best
        | some rx =>
          by_cases hpred : pred e2 rx
          · simp only [if_pos hpred]
            split_ifs
            · exact ih a2 (some (e2, rx))
            · exact ih a2 best
          · simp only [if_neg hpred]
            exact ih a2 best

theorem pickActivity_skip (rxs : List Reaction) (pred : Entry → Reaction → Bool)
    (tile : Tile) (e : Entry) (a1 a2 : List (Option Entry))
    (hid : rxIndex rxs e.id = none) (hact : tile.activity = a1 ++ some e :: a2) :
    pickActivity rxs (setActivity tile (a1 ++ a2)) pred = pickActivity rxs tile pred := by
  unfold pickActivity
  rw [setActivity_activity, hact]
  exact (pickGo_skip rxs pred e hid a1 a2 none).symm

theorem becauseTemp_skip (reg : Registry) (rxs : List Reaction) (tile : Tile)
    (e : Entry) (a1 a2 : List (Option Entry))
    (hid : rxIndex rxs e.id = none) (hact : tile.activity = a1 ++ some e :: a2) :
    becauseTemp reg rxs (setActivity tile (a1 ++ a2)) = becauseTemp reg rxs tile := by
  unfold becauseTemp
  rw [pickActivity_skip rxs _ tile e a1 a2 hid hact]

theorem becausePH_skip (reg : Registry) (rxs : List Reaction) (tile : Tile)
    (e : Entry) (a1 a2 : List (Option Entry))
    (hid : rxIndex rxs e.id = none) (hact : tile.activity = a1 ++ some e :: a2) :
    ∀ dir, becausePH reg rxs (setActivity tile (a1 ++ a2)) dir = becausePH reg rxs tile dir := by
  intro dir
  unfold becausePH
  rw [pickActivity_skip rxs _ tile e a1 a2 hid hact]

theorem becauseGas_skip (reg : Registry) (rxs : List Reaction) (tile : Tile)
    (e : Entry) (a1 a2 : List (Option Entry))
    (hid : rxIndex rxs e.id = none) (hact : tile.activity = a1 ++ some e :: a2) :
    becauseGas reg rxs (setActivity tile (a1 ++ a2)) = becauseGas reg rxs tile := by
  unfold becauseGas
  rw [pickActivity_skip rxs _ tile e a1 a2 hid hact]

theorem becausePressure_skip (reg : Registry) (rxs : List Reaction) (tile : Tile)
    (e : Entry) (a1 a2 : List (Option Entry))
    (hid : rxIndex rxs e.id = none) (hact : tile.activity = a1 ++ some e :: a2) :
    becausePressure reg rxs (setActivity tile (a1 ++ a2)) = becausePressure reg rxs tile := by
  unfold becausePressure
  rw [pickActivity_skip rxs _ tile e a1 a2 hid hact]

theorem prodFold_skip (rxs : List Reaction) (e : Entry)
    (hid : rxIndex rxs e.id = none) :
    ∀ (a1 a2 : List (Option Entry)) (m : List (String × List ProdSource)),
    List.foldl (prodStep rxs) m (a1 ++ some e :: a2) =
      List.foldl (prodStep rxs) m (a1 ++ a2) := by
  intro a1
  induction a1 with
  | nil =>
    intro a2 m
    simp only [List.nil_append, List.foldl_cons]
    have hstep : prodStep rxs m (some e) = m := by
      by_cases h0 : e.extent ≤ 0
      · simp [prodStep, h0]
      · simp [prodStep, h0, hid]
    rw [hstep]
  | cons oe rest ih =>
    intro a2 m
    simp only [List.cons_append, List.foldl_cons]
    exact ih a2 (prodStep rxs m oe)

theorem buildProductionInsights_skip (reg : Registry) (rxs : List Reaction) (tile : Tile)
    (e : Entry) (a1 a2 : List (Option Entry))
    (hid : rxIndex rxs e.id = none) (hact : tile.activity = a1 ++ some e :: a2) :
    buildProductionInsights reg rxs (setActivity tile (a1 ++ a2)) =
      buildProductionInsights reg rxs tile := by
  unfold buildProductionInsights productionsOf
  rw [setActivity_activity, hact, prodFold_skip rxs e hid a1 a2]

/-- C4 amended: an activity entry with an unknown reaction id is invisible to
the summary (all causal selection skips it), to the production-insight lines,
and yields no per-reaction sentence of its own; the claimed full equality of
narrateTile outputs fails only because the entry still occupies a top-3 slot
and still counts toward the empty-activity check. -/
theorem claim_C4_amended (reg : Registry) (rxs : List Reaction) (tile : Tile)
    (e : Entry) (a1 a2 : List (Option Entry))
    (hid : rxIndex rxs e.id = none)
    (hact : tile.activity = a1 ++ some e :: a2) :
    summarizeTile reg rxs (setActivity tile (a1 ++ a2)) = summarizeTile reg rxs tile ∧
    buildProductionInsights reg rxs (setActivity tile (a1 ++ a2)) =
      buildProductionInsights reg rxs tile ∧
    describeReactionEntry reg rxs (some tile) e = none := by
  refine ⟨?_, buildProductionInsights_skip reg rxs tile e a1 a2 hid hact, ?_⟩
  · unfold summarizeTile
    rw [setActivity_temp, setActivity_pH, setActivity_gas, setActivity_pressure,
      setActivity_history, setActivity_species,
      becauseTemp_skip reg rxs tile e a1 a2 hid hact,
      becausePressure_skip reg rxs tile e a1 a2 hid hact,
      becauseGas_skip reg rxs tile e a1 a2 hid hact]
    simp only [becausePH_skip reg rxs tile e a1 a2 hid hact]
  · unfold describeReactionEntry
    rw [hid]

/-- C4 amended witness: concrete instance at the unknown-id cell of the
counterexample. -/
theorem claim_C4_amended_witness :
    summarizeTile emptyReg [] (setActivity c4tileA []) = summarizeTile emptyReg [] c4tileA ∧
    buildProductionInsights emptyReg [] (setActivity c4tileA []) =
      buildProductionInsights emptyReg [] c4tileA ∧
    describeReactionEntry emptyReg [] (some c4tileA) c4entry = none :=
  claim_C4_amended emptyReg [] c4tileA c4entry [] [] rfl rfl

/-! C9: the history store preserves its buffer invariants. -/

theorem dropOld_sublist (c : ℚ) : ∀ l : List HSample, (dropOld c l).Sublist l := by
  intro l
  induction l with
  | nil => simp [dropOld]
  | cons x xs ih =>
    simp only [dropOld]
    by_cases hx : x.t < c
    · rw [if_pos hx]
      exact ih.trans (List.sublist_cons_self x xs)
    · rw [if_neg hx]

theorem dropOld_ge (c : ℚ) : ∀ l : List HSample,
    List.Pairwise (fun a b => a.t ≤ b.t) l → ∀ x ∈ dropOld c l, c ≤ x.t := by
  intro l
  induction l with
  | nil =>
    intro _ x hx
    simp [dropOld] at hx
  | cons y ys ih =>
    intro hp x hx
    simp only [dropOld] at hx
    by_cases hy : y.t < c
    · rw [if_pos hy] at hx
      exact ih (List.Pairwise.of_cons hp) x hx
    · rw [if_neg hy] at hx
      rcases List.mem_cons.1 hx with rfl | hx2
      · exact not_lt.1 hy
      · have h1 := (List.pairwise_cons.1 hp).1 x hx2
        have h2 := not_lt.1 hy
        linarith

/-- C9: a recordSubscribedHistories step preserves the buffer invariants
(ascending sample times, at most 200 samples, all times bounded by the last
append timestamp), provided the call time is not older than the last append;
and whenever the step appends, every retained sample is within the 10000 ms
window before now. -/
theorem claim_C9 (s : HState) (now temp pressure : ℚ) (hInv : Inv s)
    (hle : ∀ m, s.lastSampleAt = some m → m ≤ now) :
    Inv (record s now temp pressure) ∧
    (shouldSample s.lastSampleAt now = true →
      ∀ x ∈ (record s now temp pressure).history, now - 10000 ≤ x.t) := by
  obtain ⟨hist, lastAt⟩ := s
  obtain ⟨hpw, hlen, hbound⟩ := hInv
  dsimp only at hpw hlen hbound
  have hall : ∀ x ∈ hist, x.t ≤ now := by
    cases lastAt with
    | none =>
      have hb : hist = [] := hbound
      intro x hx
      rw [hb] at hx
      simp at hx
    | some m =>
      intro x hx
      exact le_trans (hbound x hx) (hle m rfl)
  by_cases hss : shouldSample lastAt now
  · have hrec : record ⟨hist, lastAt⟩ now temp pressure =
        ⟨recHist hist now temp pressure, some now⟩ := by
      simp [record, hss]
    have hpw1 : List.Pairwise (fun a b => a.t ≤ b.t)
        (hist ++ [(⟨now, temp, pressure⟩ : HSample)]) := by
      rw [List.pairwise_append]
      refine ⟨hpw, List.pairwise_singleton _ _, ?_⟩
      intro a ha b hb
      simp only [List.mem_singleton] at hb
      rw [hb]
      exact hall a ha
    have hsub2 := dropOld_sublist (now - 10000) (hist ++ [(⟨now, temp, pressure⟩ : HSample)])
    have hpw2 := List.Pairwise.sublist hsub2 hpw1
    have hmem1 : ∀ x ∈ hist ++ [(⟨now, temp, pressure⟩ : HSample)], x.t ≤ now := by
      intro x hx
      rcases List.mem_append.1 hx with hx1 | hx2
      · exact hall x hx1
      · simp only [List.mem_singleton] at hx2
        rw [hx2]
    have hcut : ∀ x ∈ dropOld (now - 10000) (hist ++ [(⟨now, temp, pressure⟩ : HSample)]),
        now - 10000 ≤ x.t := dropOld_ge _ _ hpw1
    rw [hrec]
    by_cases hcap : 200 <
        (dropOld (now - 10000) (hist ++ [(⟨now, temp, pressure⟩ : HSample)])).length
    · have hrh : recHist hist now temp pressure =
          (dropOld (now - 10000) (hist ++ [(⟨now, temp, pressure⟩ : HSample)])).tail := by
        unfold recHist
        rw [if_pos hcap]
      rw [hrh]
      have htail := List.tail_sublist
        (dropOld (now - 10000) (hist ++ [(⟨now, temp, pressure⟩ : HSample)]))
      refine ⟨⟨List.Pairwise.sublist htail hpw2, ?_, ?_⟩, ?_⟩
      · dsimp only
        have hl2 := List.Sublist.length_le hsub2
        rw [List.length_append] at hl2
        rw [List.length_tail]
        simp only [List.length_singleton] at hl2
        omega
      · intro x hx
        exact hmem1 x (hsub2.subset (htail.subset hx))
      · intro _ x hx
        exact hcut x (htail.subset hx)
    · have hrh : recHist hist now temp pressure =
          dropOld (now - 10000) (hist ++ [(⟨now, temp, pressure⟩ : HSample)]) := by
        unfold recHist
        rw [if_neg hcap]
      rw [hrh]
      refine ⟨⟨hpw2, by dsimp only; omega, ?_⟩, ?_⟩
      · intro x hx
        exact hmem1 x (hsub2.subset hx)
      · intro _ x hx
        exact hcut x hx
  · have hrec : record ⟨hist, lastAt⟩ now temp pressure = ⟨hist, lastAt⟩ := by
      simp only [record]
      rw [if_neg hss]
    rw [hrec]
    exact ⟨⟨hpw, hlen, hbound⟩, fun h => absurd h hss⟩

/-- C9 witness: one step from the empty store state at time zero. -/
theorem claim_C9_witness :
    Inv (record ⟨[], none⟩ 0 25 0) ∧
    (shouldSample (⟨[], none⟩ : HState).lastSampleAt 0 = true →
      ∀ x ∈ (record ⟨[], none⟩ 0 25 0).history, 0 - 10000 ≤ x.t) :=
  claim_C9 ⟨[], none⟩ 0 25 0 ⟨List.Pairwise.nil, by simp, rfl⟩
    (fun _ hm => Option.noConfusion hm)

end ChemSim
